import Mathlib

/-!
Shallow embedding of promptsource/seqio_tasks/tasks.py.

The script registers seqio tasks and mixtures from a CSV manifest and a
template collection.  Pure computations of the script (manifest-row
classification, metric selection, label-string extraction, task naming,
mixture filtering) are translated directly from the Python source.  External
framework functions that the script merely calls (t5 glue metrics,
promptsource utils, HF dataset loading) are modelled as parameters bundled in
an environment structure, and the process-wide seqio registries are modelled
by explicit state passing.  Python exceptions are modelled by an error
component threaded through every step.

String operations are modelled on the character lists underlying Lean
strings, mirroring the semantics of the corresponding Python str methods
(split with a non-empty separator, startswith, endswith, strip on ASCII
whitespace).
-/

/-- Model of Python str.startswith: prefix test on character lists. -/
def isPrefixQ : List Char → List Char → Bool
  | [], _ => true
  | _ :: _, [] => false
  | p :: ps, c :: cs => p = c && isPrefixQ ps cs

/-- Python s.startswith(p). -/
def pyStartsWith (s p : String) : Bool := isPrefixQ p.data s.data

/-- Python s.endswith(p). -/
def pyEndsWith (s p : String) : Bool := isPrefixQ p.data.reverse s.data.reverse

/-- When sep is a prefix of the list, return the remainder. -/
def stripSepQ : List Char → List Char → Option (List Char)
  | [], rest => some rest
  | _ :: _, [] => none
  | p :: ps, c :: cs => if p = c then stripSepQ ps cs else none

/-- Fuelled worker for Python str.split with a non-empty separator: scan left
to right, breaking at each leftmost non-overlapping occurrence of sep. -/
def pySplitFuel (sep : List Char) : Nat → List Char → List (List Char)
  | _, [] => [[]]
  | 0, s => [s]
  | fuel + 1, c :: cs =>
    match stripSepQ sep (c :: cs) with
    | some rest => [] :: pySplitFuel sep fuel rest
    | none =>
      match pySplitFuel sep fuel cs with
      | [] => [[c]]
      | p :: ps => (c :: p) :: ps

/-- Python s.split(sep) for a non-empty separator. -/
def pySplitOn (s sep : String) : List String :=
  (pySplitFuel sep.data s.data.length s.data).map (fun l => String.mk l)

/-- ASCII whitespace recognized by Python str.strip and by the regex class
backslash-s (space, tab, newline, carriage return, vertical tab, form feed). -/
def isPyWs (c : Char) : Bool :=
  c = ' ' || c = '\t' || c = '\n' || c = '\r' || c = '\x0b' || c = '\x0c'

/-- Python s.strip(): remove leading and trailing whitespace. -/
def pyStrip (s : String) : String :=
  String.mk (((s.data.dropWhile isPyWs).reverse.dropWhile isPyWs).reverse)

/-- Python exceptions that the script can raise. -/
inductive PyErr
  | keyError (key : String)
  | indexError
  | evalError (src : String)
deriving DecidableEq, Repr

/-- First-match association-list lookup, the behaviour of a Python dict
lookup on this embedding's association lists. -/
def lookupFirst {α β : Type} [DecidableEq α] (k : α) : List (α × β) → Option β
  | [] => none
  | p :: ps => if p.1 = k then some p.2 else lookupFirst k ps

/-- Fields of promptsource template metadata read by tasks.py. -/
structure TemplateMetadata where
  metrics : List String
  original_task : Bool
deriving DecidableEq, Repr

/-- Fields of a promptsource Template read by tasks.py: the jinja source and
the metadata. -/
structure Template where
  jinja : String
  metadata : TemplateMetadata
deriving DecidableEq, Repr

/-- Character class [^{}] of the label-list regex. -/
def noBrace (c : Char) : Bool := !(c = '{' || c = '}')

/-- Character class matched by an unescaped dot in the label-list regex:
any character except newline. -/
def noNl (c : Char) : Bool := !(c = '\n')

/-- Character class ["|'] of the label-list regex (quote, bar, apostrophe). -/
def isQB (c : Char) : Bool := c = '"' || c = '|' || c = '\''

/-- Tail of the label-list regex after its second dot-star: a closing
bracket, whitespace, two closing braces, and a brace-free capture to the end
of the string.  Returns the third capture group. -/
def tailAfterStar2 : List Char → Option (List Char)
  | ']' :: r12 =>
    (match r12.dropWhile isPyWs with
     | '}' :: '}' :: r14 => if r14.all noBrace then some r14 else none
     | _ => none)
  | _ => none

/-- Greedy match of the second dot-star of the label-list regex followed by
its tail: the longest newline-free split whose remainder matches wins,
mirroring the backtracking order of Python re. -/
def matchFromStar2 (cs : List Char) : Option (List Char) :=
  (List.range (cs.length + 1)).reverse.findSome? (fun k =>
    if (cs.take k).all noNl then tailAfterStar2 (cs.drop k) else none)

/-- Tail of the label-list regex after its first dot-star: a closing quote
character, whitespace, a closing bracket, whitespace, an opening bracket and
the rest of the pattern.  Returns the closing quote, the whitespace captured
inside group 2, and the third capture group. -/
def tailAfterStar1 : List Char → Option (Char × List Char × List Char)
  | [] => none
  | q2 :: r7 =>
    if isQB q2 then
      let ws3 := r7.takeWhile isPyWs
      match r7.dropWhile isPyWs with
      | ']' :: r9 =>
        (match r9.dropWhile isPyWs with
         | '[' :: r11 =>
           (match matchFromStar2 r11 with
            | some g3 => some (q2, ws3, g3)
            | none => none)
         | _ => none)
      | _ => none
    else none

/-- Greedy match of the first dot-star of the label-list regex followed by
its tail, longest newline-free split first.  Returns the matched middle, the
closing quote, the trailing whitespace of group 2, and group 3. -/
def matchFromStar1 (cs : List Char) : Option (List Char × Char × List Char × List Char) :=
  (List.range (cs.length + 1)).reverse.findSome? (fun k =>
    if (cs.take k).all noNl then
      match tailAfterStar1 (cs.drop k) with
      | some (q2, ws3, g3) => some (cs.take k, q2, ws3, g3)
      | none => none
    else none)

/-- Anchored match of the label-list regex of get_label_strings against a
string, returning the three capture groups (text before the braces, the
bracketed list source, text after the braces).  The leading brace-free run,
the double braces, the whitespace runs and the opening bracket and quote are
forced, because no starred class there overlaps the required next character;
the two dot-stars are matched greedily with backtracking. -/
def labelListMatch (s : String) : Option (String × String × String) :=
  let cs := s.data
  let g1 := cs.takeWhile noBrace
  match cs.dropWhile noBrace with
  | '{' :: '{' :: r2 =>
    (match r2.dropWhile isPyWs with
     | '[' :: r4 =>
       let ws2 := r4.takeWhile isPyWs
       (match r4.dropWhile isPyWs with
        | q1 :: r6 =>
          if isQB q1 then
            match matchFromStar1 r6 with
            | some (mid1, q2, ws3, g3) =>
              some (String.mk g1,
                    String.mk ('[' :: (ws2 ++ q1 :: (mid1 ++ q2 :: (ws3 ++ [']'])))),
                    String.mk g3)
            | none => none
          else none
        | [] => none)
     | _ => none)
  | _ => none

/-- Python escape-sequence handling inside a string literal, for the escapes
that occur in label lists: the escaped backslash, quotes and n, t, r are
translated; numeric and unicode escapes are not modelled; any other escaped
character keeps its backslash, as Python does for unrecognized escapes. -/
def escChar : Char → Option String
  | '\\' => some "\\"
  | '\'' => some "'"
  | '"' => some "\""
  | 'n' => some "\n"
  | 't' => some "\t"
  | 'r' => some "\r"
  | 'a' => none
  | 'b' => none
  | 'f' => none
  | 'v' => none
  | 'x' => none
  | 'N' => none
  | 'u' => none
  | 'U' => none
  | c => if c.isDigit then none else some ("\\" ++ String.singleton c)

/-- Parse the body of a Python string literal delimited by quote q, returning
the decoded string and the characters after the closing quote.  A raw newline
inside the literal is a syntax error, as in Python. -/
def parseStrLit (q : Char) : List Char → Option (String × List Char)
  | [] => none
  | '\\' :: rest =>
    (match rest with
     | [] => none
     | e :: rest2 =>
       match escChar e with
       | none => none
       | some s =>
         match parseStrLit q rest2 with
         | none => none
         | some (str, r) => some (s ++ str, r))
  | c :: rest =>
    if c = q then some ("", rest)
    else if c = '\n' then none
    else
      match parseStrLit q rest with
      | none => none
      | some (str, r) => some (String.singleton c ++ str, r)

/-- Parse the items of a Python list display of string literals, with
optional trailing comma, requiring the closing bracket to end the input. -/
def parseItems : Nat → List Char → Option (List String)
  | _, ']' :: rest => if rest.isEmpty then some [] else none
  | 0, _ => none
  | fuel + 1, q :: rest =>
    if q = '"' || q = '\'' then
      match parseStrLit q rest with
      | none => none
      | some (s, r) =>
        (match r.dropWhile isPyWs with
         | ',' :: r2 =>
           (match parseItems fuel (r2.dropWhile isPyWs) with
            | some ss => some (s :: ss)
            | none => none)
         | ']' :: r2 => if r2.isEmpty then some [s] else none
         | _ => none)
    else none
  | _, [] => none

/-- Modelled from the spec: the call eval(label_string_match.group(2)) in
get_label_strings evaluates the captured source text as Python.  The captured
text is a bracketed expression whose first and last tokens are quote-like
characters, and its intended form is a list display of string literals; the
model evaluates exactly those list displays and reports an evaluation error
on any other captured text, where full Python eval is not representable. -/
def pyEvalStrList (s : String) : Option (List String) :=
  match s.data with
  | '[' :: rest => parseItems rest.length (rest.dropWhile isPyWs)
  | _ => none

/-- Translation of get_label_strings (tasks.py lines 42-52): take the text
after the first ||| separator of the jinja source (an IndexError when there
is no separator), strip it, match it against the label-list regex, and on a
match evaluate the captured list source and surround each label with the
text captured before and after the braces. -/
def get_label_strings (template : Template) : Except PyErr (Option (List String)) :=
  match (pySplitOn template.jinja "|||").get? 1 with
  | none => .error .indexError
  | some target =>
    match labelListMatch (pyStrip target) with
    | none => .ok none
    | some (before_label, inner, after_label) =>
      match pyEvalStrList inner with
      | none => .error (.evalError inner)
      | some labels => .ok (some (labels.map (fun l => before_label ++ l ++ after_label)))

/-- Postprocessing functions attached to registered tasks, named after the
functions tasks.py passes as postprocess_fn. -/
inductive Postprocessor
  | strip_whitespace
  | string_label_to_class_id (label_classes : List String)
  | rank_classification
deriving DecidableEq, Repr

/-- Translation of maybe_get_class_id_postprocessor (tasks.py lines 55-66):
a class-id postprocessor over the label strings when get_label_strings
returns a list (checked with an is-not-None test), else strip_whitespace. -/
def maybe_get_class_id_postprocessor (template : Template) : Except PyErr Postprocessor :=
  match get_label_strings template with
  | .error e => .error e
  | .ok (some labels) => .ok (.string_label_to_class_id labels)
  | .ok none => .ok .strip_whitespace

/-- Metric functions attached to registered tasks, named after the t5
metric functions that tasks.py references. -/
inductive Metric
  | bleu
  | rouge
  | span_squad
  | squad
  | trivia_qa
  | accuracy
  | sequence_accuracy
  | pearson_corrcoef
  | spearman_corrcoef
  | multirc_f1_over_all_answers
  | auc
  | coqa_f1
  | edit_distance
  | rank_classification (num_classes : Nat)
deriving DecidableEq, Repr

/-- Translation of the GET_METRICS dict (tasks.py lines 17-34), mapping
metric names of template metadata to t5 metric functions. -/
def GET_METRICS : List (String × Metric) := [
  ("BLEU", .bleu),
  ("ROUGE", .rouge),
  ("Span Squad", .span_squad),
  ("Squad", .squad),
  ("Trivia QA", .trivia_qa),
  ("Accuracy", .accuracy),
  ("Sequence Accuracy", .sequence_accuracy),
  ("Pearson Correlation", .pearson_corrcoef),
  ("Spearman Correlation", .spearman_corrcoef),
  ("MultiRC", .multirc_f1_over_all_answers),
  ("AUC", .auc),
  ("COQA F1", .coqa_f1),
  ("Edit Distance", .edit_distance),
  ("Other", .accuracy)]

/-- Translation of the comprehension [GET_METRICS[m] for m in
template.metadata.metrics] (tasks.py line 91): metrics are looked up left to
right and the first name missing from GET_METRICS raises a KeyError. -/
def evalMetricsList : List String → Except PyErr (List Metric)
  | [] => .ok []
  | m :: ms =>
    match lookupFirst m GET_METRICS with
    | none => .error (.keyError m)
    | some f =>
      match evalMetricsList ms with
      | .ok fs => .ok (f :: fs)
      | .error e => .error e

/-- Key of the template collection and of the manifest lists: a dataset name
and an optional subset name. -/
abbrev DKey := String × Option String

/-- Modelled from the spec: the external template collection (the spec
describes it as "an external template collection keyed by (dataset, subset,
template name)"; promptsource.templates is not under src/).  A dataset's
templates expose the template names and a name-keyed mapping to templates,
the two accesses tasks.py performs. -/
structure DatasetTemplates where
  all_template_names : List String
  templates : List (String × Template)
deriving DecidableEq, Repr

/-- Lookup of a template by name, the subscript access dataset[template_name]
of tasks.py. -/
def DatasetTemplates.getItem (dt : DatasetTemplates) (name : String) : Option Template :=
  lookupFirst name dt.templates

/-- Modelled from the spec: the template collection as loaded from disk, an
association of (dataset, subset) keys to dataset templates. -/
abbrev TemplateCollection := List (DKey × DatasetTemplates)

/-- Modelled from the spec: TemplateCollection.get_dataset.  A key present in
the collection yields its templates; a key not present yields an empty
dataset-templates object (promptsource reloads from disk and produces an
empty object when nothing is stored, which is why the ANLI section still
works after the collection entry for anli is removed at line 173). -/
def getDatasetOf (coll : TemplateCollection) (k : DKey) : DatasetTemplates :=
  (lookupFirst k coll).getD ⟨[], []⟩

/-- External functions called by tasks.py that live outside this repository
(t5.data.glue_utils) or outside src/ (promptsource.seqio_tasks.utils),
treated as parameters of the embedding: the glue and super-glue metric
tables, the task-name builder, and the split table of a HF dataset mapping
each split name to its number of examples. -/
structure Env where
  getGlueMetric : Option String → List Metric
  getSuperGlueMetric : Option String → List Metric
  getTaskName : String → Option String → String → String
  getDatasetSplits : String → Option String → List (String × Nat)

/-- Result of get_tf_dataset, describing the dataset pipeline it builds: the
HF dataset loaded by name and subset, indexed at the mapped split, with the
template applied and the result converted to a tf dataset.  The external
dataset operations are modelled symbolically by recording their inputs. -/
structure TfDataset where
  dataset_name : String
  subset_name : Option String
  selected_split : String
  template : Template
deriving DecidableEq, Repr

set_option linter.unusedVariables false in
/-- Translation of get_tf_dataset (tasks.py lines 69-75): shuffle_files and
seed are deleted on entry (HF datasets does not support file-level
shuffling), the dataset is loaded by name and subset and indexed at
split_mapping[split] (a KeyError when the split is not a key), and the
template is applied. -/
def get_tf_dataset (split : String) (shuffle_files : Bool) (seed : Option Nat)
    (dataset_name : String) (subset_name : Option String) (template : Template)
    (split_mapping : List (String × String)) : Except PyErr TfDataset :=
  match lookupFirst split split_mapping with
  | none => .error (.keyError split)
  | some mapped => .ok ⟨dataset_name, subset_name, mapped, template⟩

/-- The seqio.FunctionDataSource built by add_task (tasks.py lines 96-108),
recording the arguments captured by the partial application of
get_tf_dataset, the split list, and the per-split example counts. -/
structure FunctionDataSource where
  dataset_name : String
  subset_name : Option String
  template : Template
  split_mapping : List (String × String)
  splits : List String
  num_input_examples : List (String × Nat)
deriving DecidableEq, Repr

/-- A task registered in seqio.TaskRegistry, with the fields tasks.py passes
to TaskRegistry.add: name, data source, preprocessor chain (by name), metric
functions and postprocessing function. -/
structure RegisteredTask where
  name : String
  source : FunctionDataSource
  preprocessors : List String
  metric_fns : List Metric
  postprocess_fn : Postprocessor
deriving DecidableEq, Repr

/-- Metric selection of add_task (tasks.py lines 82-91): glue datasets use
the external glue metric table, super_glue uses [accuracy] for the wsc.fixed
and multirc subsets and the external super-glue table otherwise, and every
other dataset looks its template metadata metric names up in GET_METRICS. -/
def lookupMetrics (env : Env) (dataset_name : String) (subset_name : Option String)
    (template : Template) : Except PyErr (List Metric) :=
  if dataset_name = "glue" then .ok (env.getGlueMetric subset_name)
  else if dataset_name = "super_glue" then
    if subset_name = some "wsc.fixed" ∨ subset_name = some "multirc" then .ok [.accuracy]
    else .ok (env.getSuperGlueMetric subset_name)
  else evalMetricsList template.metadata.metrics

/-- The num_input_examples dict of add_task (tasks.py line 107): for each
entry of the split mapping, the example count of the mapped split, a KeyError
when the mapped split is missing from the dataset split table. -/
def numInputExamples (dataset_splits : List (String × Nat)) :
    List (String × String) → Except PyErr (List (String × Nat))
  | [] => .ok []
  | p :: ps =>
    match lookupFirst p.2 dataset_splits with
    | none => .error (.keyError p.2)
    | some n =>
      match numInputExamples dataset_splits ps with
      | .ok rest => .ok ((p.1, n) :: rest)
      | .error e => .error e

/-- Translation of add_task (tasks.py lines 78-146), returning the tasks it
registers in order.  The template is looked up (line 79), the task name
defaults to the external task-name builder (line 80), the metrics are
selected (lines 82-91), the split mapping defaults to the identity over the
dataset splits (line 94), the data source is built (lines 96-108), the main
task is registered with the maybe-class-id postprocessor (lines 120-127),
and when the label strings are a non-empty list (Python truthiness at line
131) a second rank-classification task named task_name + "_score_eval" is
registered whose metric is rank_classification with num_classes equal to the
number of label strings (lines 129-146).  Every failure point of the
function precedes its first registration, so an error yields no tasks. -/
def add_task (env : Env) (coll : TemplateCollection) (dataset_name : String)
    (subset_name : Option String) (template_name : String)
    (task_name : Option String) (split_mapping : Option (List (String × String))) :
    Except PyErr (List RegisteredTask) :=
  match (getDatasetOf coll (dataset_name, subset_name)).getItem template_name with
  | none => .error (.keyError template_name)
  | some template =>
    let tname := task_name.getD (env.getTaskName dataset_name subset_name template_name)
    match lookupMetrics env dataset_name subset_name template with
    | .error e => .error e
    | .ok metrics =>
      let dataset_splits := env.getDatasetSplits dataset_name subset_name
      let sm := split_mapping.getD (dataset_splits.map (fun p => (p.1, p.1)))
      match numInputExamples dataset_splits sm with
      | .error e => .error e
      | .ok nie =>
        let data_source : FunctionDataSource :=
          { dataset_name := dataset_name, subset_name := subset_name, template := template,
            split_mapping := sm, splits := sm.map (fun p => p.1), num_input_examples := nie }
        match maybe_get_class_id_postprocessor template with
        | .error e => .error e
        | .ok post =>
          let mainTask : RegisteredTask :=
            { name := tname, source := data_source,
              preprocessors := ["tokenize", "append_eos"],
              metric_fns := metrics, postprocess_fn := post }
          match get_label_strings template with
          | .error e => .error e
          | .ok (some labels) =>
            if labels.isEmpty then .ok [mainTask]
            else .ok [mainTask,
              { name := tname ++ "_score_eval", source := data_source,
                preprocessors := ["rank_classification", "tokenize", "append_eos"],
                metric_fns := [.rank_classification labels.length],
                postprocess_fn := .rank_classification }]
          | .ok none => .ok [mainTask]

/-- Process-wide registry and mixture state of the script: the seqio task
registry and the train and eval mixture name lists. -/
structure ScriptState where
  registry : List RegisteredTask
  train_mixture : List String
  eval_mixture : List String
deriving DecidableEq, Repr

/-- Outcome of a script step: the state reached, and the uncaught exception
when one was raised at that point. -/
abbrev StepRes := ScriptState × Option PyErr

/-- A call of add_task at the script level: on success the returned tasks
are appended to the registry, on an uncaught exception the state is exactly
the input state, because every failure point of add_task precedes its first
TaskRegistry.add call. -/
def add_task_state (env : Env) (coll : TemplateCollection) (dataset_name : String)
    (subset_name : Option String) (template_name : String) (task_name : Option String)
    (split_mapping : Option (List (String × String))) (st : ScriptState) : StepRes :=
  match add_task env coll dataset_name subset_name template_name task_name split_mapping with
  | .ok ts => ({ st with registry := st.registry ++ ts }, none)
  | .error e => (st, some e)

/-- Sequencing of script steps over a list: run the step on each element in
order, stopping at the state of the first uncaught exception. -/
def seqFold {α : Type} (f : ScriptState → α → StepRes) : ScriptState → List α → StepRes
  | st, [] => (st, none)
  | st, a :: as =>
    match f st a with
    | (st1, none) => seqFold f st1 as
    | (st1, some e) => (st1, some e)

/-- Body of the inner template loop of the main registration loop (tasks.py
lines 182-191): add_task is called, the task name is appended to
train_mixture when the key is in do_train, and when the key is in do_eval
the template is looked up again and the task name is appended to
eval_mixture only when its metadata original_task flag is set. -/
def innerStep (env : Env) (coll : TemplateCollection) (do_train do_eval : List DKey)
    (k : DKey) (st : ScriptState) (template_name : String) : StepRes :=
  match add_task_state env coll k.1 k.2 template_name none none st with
  | (st1, some e) => (st1, some e)
  | (st1, none) =>
    let DST_name := env.getTaskName k.1 k.2 template_name
    let st2 := if k ∈ do_train then
        { st1 with train_mixture := st1.train_mixture ++ [DST_name] } else st1
    if k ∈ do_eval then
      match (getDatasetOf coll k).getItem template_name with
      | none => (st2, some (.keyError template_name))
      | some template =>
        if template.metadata.original_task then
          ({ st2 with eval_mixture := st2.eval_mixture ++ [DST_name] }, none)
        else (st2, none)
    else (st2, none)

/-- Body of the main registration loop for one collection key (tasks.py
lines 176-191): a key in neither manifest list is removed from the
collection and skipped (the removal has no further observable effect,
because get_dataset reloads removed entries); a key in either list has all
its templates processed in order. -/
def processKey (env : Env) (coll : TemplateCollection) (do_train do_eval : List DKey)
    (st : ScriptState) (k : DKey) : StepRes :=
  if k ∈ do_train ++ do_eval then
    seqFold (innerStep env coll do_train do_eval k) st (getDatasetOf coll k).all_template_names
  else (st, none)

/-- The main registration loop over the collection keys. -/
def mainLoop (env : Env) (coll : TemplateCollection) (do_train do_eval : List DKey)
    (st : ScriptState) (keys : List DKey) : StepRes :=
  seqFold (processKey env coll do_train do_eval) st keys

/-- Body of the ANLI special-case loop for one template of one round
(tasks.py lines 197-206): add_task is called with the round-suffixed task
name and the round-specific split mapping, and the task name is appended to
eval_mixture unconditionally. -/
def anliStep (env : Env) (coll : TemplateCollection) (anli_round : String)
    (st : ScriptState) (template_name : String) : StepRes :=
  let task_name := env.getTaskName "anli" none template_name ++ "_" ++ anli_round
  match add_task_state env coll "anli" none template_name (some task_name)
      (some [("train", "train_" ++ anli_round), ("validation", "dev_" ++ anli_round),
             ("test", "test_" ++ anli_round)]) st with
  | (st1, some e) => (st1, some e)
  | (st1, none) => ({ st1 with eval_mixture := st1.eval_mixture ++ [task_name] }, none)

/-- One ANLI round: the ANLI templates processed in order. -/
def anliRound (env : Env) (coll : TemplateCollection) (st : ScriptState)
    (anli_round : String) : StepRes :=
  seqFold (anliStep env coll anli_round) st (getDatasetOf coll ("anli", none)).all_template_names

/-- The ANLI special-case section (tasks.py lines 195-206). -/
def anliLoop (env : Env) (coll : TemplateCollection) (st : ScriptState) : StepRes :=
  seqFold (anliRound env coll) st ["r1", "r2", "r3"]

/-- A row of the experiment_D4.csv manifest as produced by csv.DictReader:
the five columns tasks.py reads, and the remaining columns of the row
collected as an association list. -/
structure Row where
  skip : String
  subset : String
  do_train : String
  do_eval : String
  HF_name : String
  other : List (String × String)
deriving DecidableEq, Repr

/-- A manifest row after the subset normalization of tasks.py line 159-160:
an empty subset string is replaced by None. -/
structure NRow where
  skip : String
  subset : Option String
  do_train : String
  do_eval : String
  HF_name : String
  other : List (String × String)
deriving DecidableEq, Repr

/-- Subset normalization (tasks.py lines 159-160): the empty string becomes
None, to match the promptsource Template keys. -/
def normSubset (s : String) : Option String := if s = "" then none else some s

/-- The row with its subset normalized. -/
def Row.toNRow (row : Row) : NRow :=
  ⟨row.skip, normSubset row.subset, row.do_train, row.do_eval, row.HF_name, row.other⟩

/-- The four lists built by the manifest loop: train_sets, eval_sets,
do_train and do_eval. -/
structure ManifestResult where
  train_sets : List NRow
  eval_sets : List NRow
  do_train : List DKey
  do_eval : List DKey
deriving DecidableEq, Repr

/-- Translation of the manifest loop (tasks.py lines 154-166): a row with a
non-empty skip field is skipped (Python truthiness of the string), an empty
subset is normalized to None, a row whose do_train field is exactly TRUE is
appended to train_sets and its (HF_name, subset) pair to do_train, and a row
whose do_eval field is exactly TRUE is appended to eval_sets and its pair to
do_eval.  No other column of the row is consulted. -/
def processRows : List Row → ManifestResult
  | [] => ⟨[], [], [], []⟩
  | row :: rest =>
    if row.skip ≠ "" then processRows rest
    else
      let pair : DKey := (row.HF_name, normSubset row.subset)
      let tail := processRows rest
      { train_sets := (if row.do_train = "TRUE" then [row.toNRow] else []) ++ tail.train_sets,
        eval_sets := (if row.do_eval = "TRUE" then [row.toNRow] else []) ++ tail.eval_sets,
        do_train := (if row.do_train = "TRUE" then [pair] else []) ++ tail.do_train,
        do_eval := (if row.do_eval = "TRUE" then [pair] else []) ++ tail.do_eval }

/-- The collection keys iterated by the main loop: the keys of the loaded
collection after the removal of the anli entry at tasks.py line 173. -/
def keysAfterRemoval (coll : TemplateCollection) : List DKey :=
  (coll.map (fun p => p.1)).filter (fun k => !(decide (k = (("anli", none) : DKey))))

/-- The whole registration pass of tasks.py (lines 149-206): the manifest is
processed, anli is removed from the collection (a KeyError when absent), the
main loop runs over the remaining keys from the empty state, and the ANLI
section runs afterwards. -/
def runScript (env : Env) (coll : TemplateCollection) (rows : List Row) : StepRes :=
  let mr := processRows rows
  if (("anli", none) : DKey) ∈ coll.map (fun p => p.1) then
    match mainLoop env coll mr.do_train mr.do_eval ⟨[], [], []⟩ (keysAfterRemoval coll) with
    | (st1, none) => anliLoop env coll st1
    | (st1, some e) => (st1, some e)
  else (⟨[], [], []⟩, some (.keyError "anli"))

/-- Translation of TASK_BLACKLIST (tasks.py lines 219-246): task names
excluded from mixtures for tokenization-length or cached-file reasons. -/
def TASK_BLACKLIST : List String := [
    "hotpot_qa_distractor_Generate_Explanations",
    "hotpot_qa_fullwiki_Generate_Explanations",
    "hotpot_qa_distractor_Generate_Answer_and_Explanations",
    "hotpot_qa_fullwiki_Generate_Answer_and_Explanations",
    "hotpot_qa_fullwiki_Generate_Answer",
    "hotpot_qa_distractor_Generate_Answer",
    "hotpot_qa_distractor_Generate_Title_2",
    "hotpot_qa_fullwiki_Generate_Title_2",
    "hotpot_qa_fullwiki_Generate_Title_1",
    "hotpot_qa_distractor_Generate_Title_1",
    "hotpot_qa_distractor_Generate_Question",
    "hotpot_qa_fullwiki_Generate_Question",
    "tab_fact_tab_fact_tab_fact_3",
    "tab_fact_tab_fact_tab_fact_2",
    "tab_fact_tab_fact_tab_fact_1",
    "tab_fact_tab_fact_tab_fact_7",
    "tab_fact_tab_fact_tab_fact_4",
    "tab_fact_tab_fact_tab_fact_5",
    "tab_fact_tab_fact_tab_fact_6",
    "wiki_hop_masked_Choose_Best_Object_Candidate",
    "wiki_hop_masked_Indirect_Question_about_Birthplace_Citizenship_Place_of_Death",
    "narrativeqa_Template_05",
    "ecthr_cases_alleged_violation_prediction_silver_rationales",
    "gigaword_summarize_"]

/-- Task list of the all_tasks_combined_max_1m mixture (tasks.py lines
248-252): every registered task name not in the blacklist. -/
def all_tasks_combined_max_1m (registry_names : List String) : List String :=
  registry_names.filter (fun task => !(decide (task ∈ TASK_BLACKLIST)))

/-- Task list of the all_super_glue_tasks mixture (tasks.py lines 254-258):
every registered task name starting with super_glue. -/
def all_super_glue_tasks (registry_names : List String) : List String :=
  registry_names.filter (fun task => pyStartsWith task "super_glue")

/-- Task list of the clean_tasks mixture (tasks.py lines 261-265): the train
mixture names not in the blacklist. -/
def clean_tasks (train_mixture : List String) : List String :=
  train_mixture.filter (fun task => !(decide (task ∈ TASK_BLACKLIST)))

/-- Task list of the clean_eval_tasks mixture (tasks.py lines 268-272): the
eval mixture names not in the blacklist. -/
def clean_eval_tasks (eval_mixture : List String) : List String :=
  eval_mixture.filter (fun task => !(decide (task ∈ TASK_BLACKLIST)))

/-- Task list of the anli_eval_tasks mixture (tasks.py lines 274-278): the
eval mixture names starting with anli. -/
def anli_eval_tasks (eval_mixture : List String) : List String :=
  eval_mixture.filter (fun task => pyStartsWith task "anli")

/-- Task list of the score_eval_tasks mixture (tasks.py lines 280-284):
every registered task name ending with _score_eval. -/
def score_eval_tasks (registry_names : List String) : List String :=
  registry_names.filter (fun task => pyEndsWith task "_score_eval")

/-- Task list of the clean_score_eval_tasks mixture (tasks.py lines
286-296): every registered name ending with _score_eval whose base name
(split before _score_eval) is in the eval mixture and not blacklisted. -/
def clean_score_eval_tasks (registry_names eval_mixture : List String) : List String :=
  registry_names.filter (fun task =>
    pyEndsWith task "_score_eval"
    && decide ((pySplitOn task "_score_eval").headD "" ∈ eval_mixture)
    && !(decide ((pySplitOn task "_score_eval").headD "" ∈ TASK_BLACKLIST)))

/-- Names appended to eval_mixture by one template of the main loop: the
task name when the key is in do_eval and the template's original_task flag
is set, nothing otherwise. -/
def evalAppend (env : Env) (coll : TemplateCollection) (do_eval : List DKey)
    (k : DKey) (template_name : String) : List String :=
  if k ∈ do_eval then
    match (getDatasetOf coll k).getItem template_name with
    | some t => if t.metadata.original_task then [env.getTaskName k.1 k.2 template_name] else []
    | none => []
  else []

/-- The task names of a collection key whose templates have the
original_task flag set. -/
def origEvalNames (env : Env) (coll : TemplateCollection) (k : DKey) : List String :=
  ((getDatasetOf coll k).all_template_names.filter (fun tn =>
      match (getDatasetOf coll k).getItem tn with
      | some t => t.metadata.original_task
      | none => false)).map (fun tn => env.getTaskName k.1 k.2 tn)

/-- The eval mixture contribution of the main loop: for each key in
do_eval, its original-task template names. -/
def mainEvalList (env : Env) (coll : TemplateCollection) (do_eval : List DKey)
    (keys : List DKey) : List String :=
  keys.flatMap (fun k => if k ∈ do_eval then origEvalNames env coll k else [])

/-- The eval mixture contribution of the ANLI section: for every round and
every ANLI template, the round-suffixed task name, with no original_task
condition. -/
def anliEvalNames (env : Env) (coll : TemplateCollection) : List String :=
  ["r1", "r2", "r3"].flatMap (fun anli_round =>
    (getDatasetOf coll ("anli", none)).all_template_names.map
      (fun tn => env.getTaskName "anli" none tn ++ "_" ++ anli_round))

/-- Membership-preservation order on script states: everything registered or
mixed in the first state is still there in the second. -/
def StateSub (st st1 : ScriptState) : Prop :=
  (∀ x, x ∈ st.registry → x ∈ st1.registry) ∧
  (∀ x, x ∈ st.train_mixture → x ∈ st1.train_mixture) ∧
  (∀ x, x ∈ st.eval_mixture → x ∈ st1.eval_mixture)

/-- A template whose target is a recognizable label list with two labels. -/
def tmplLabels : Template :=
  ⟨"Question? ||| \x7b\x7b [\"yes\", \"no\"][label] \x7d\x7d", ⟨["Accuracy"], true⟩⟩

/-- A template whose target is free text. -/
def tmplPlain : Template := ⟨"Question? ||| answer", ⟨["Accuracy"], true⟩⟩

/-- A template naming a metric missing from GET_METRICS. -/
def tmplBadMetric : Template := ⟨"Question? ||| answer", ⟨["Nope"], true⟩⟩

/-- A template whose jinja has no ||| separator. -/
def tmplNoSep : Template := ⟨"no separator here", ⟨["Accuracy"], true⟩⟩

/-- A concrete environment for witness runs. -/
def env0 : Env where
  getGlueMetric := fun _ => [.accuracy]
  getSuperGlueMetric := fun _ => [.accuracy]
  getTaskName := fun d s tn =>
    d ++ (match s with | some x => "_" ++ x | none => "") ++ "_" ++ tn
  getDatasetSplits := fun _ _ => [("train", 100), ("validation", 10)]

/-- A concrete collection with one ordinary dataset and an empty ANLI
entry. -/
def coll0 : TemplateCollection :=
  [(("d", none), ⟨["t1"], [("t1", tmplLabels)]⟩), (("anli", none), ⟨[], []⟩)]

/-- A concrete collection whose dataset names an unknown metric. -/
def coll1 : TemplateCollection := [(("bad", none), ⟨["t1"], [("t1", tmplBadMetric)]⟩)]

/-- A concrete manifest with one row trained and evaluated, carrying an
unrecognized column. -/
def rows0 : List Row := [⟨"", "", "TRUE", "TRUE", "d", [("training_fraction", "1.0")]⟩]

/-- The empty script state. -/
def st0 : ScriptState := ⟨[], [], []⟩

/-- The task list registered by add_task on the concrete witness inputs. -/
def ts0 : List RegisteredTask :=
  (add_task env0 coll0 "d" none "t1" none none).toOption.getD []

theorem blacklist_none_start_super_glue :
    TASK_BLACKLIST.all (fun b => !(pyStartsWith b "super_glue")) = true := by decide

theorem blacklist_none_start_anli :
    TASK_BLACKLIST.all (fun b => !(pyStartsWith b "anli")) = true := by decide

theorem blacklist_none_end_score_eval :
    TASK_BLACKLIST.all (fun b => !(pyEndsWith b "_score_eval")) = true := by decide

/-- C1: For every mixture the script registers (all_tasks_combined_max_1m,
all_super_glue_tasks, clean_tasks, clean_eval_tasks, anli_eval_tasks,
score_eval_tasks, clean_score_eval_tasks), no task name that is a member of
TASK_BLACKLIST appears in that mixture's task list.  The blacklist-filtering
mixtures exclude the blacklist directly; the remaining three admit only
names starting with super_glue or anli or ending with _score_eval, and no
blacklist member has that shape. -/
theorem no_blacklisted_task_in_any_mixture :
    ∀ (registry_names train_mixture eval_mixture : List String),
    (∀ t ∈ all_tasks_combined_max_1m registry_names, t ∉ TASK_BLACKLIST) ∧
    (∀ t ∈ all_super_glue_tasks registry_names, t ∉ TASK_BLACKLIST) ∧
    (∀ t ∈ clean_tasks train_mixture, t ∉ TASK_BLACKLIST) ∧
    (∀ t ∈ clean_eval_tasks eval_mixture, t ∉ TASK_BLACKLIST) ∧
    (∀ t ∈ anli_eval_tasks eval_mixture, t ∉ TASK_BLACKLIST) ∧
    (∀ t ∈ score_eval_tasks registry_names, t ∉ TASK_BLACKLIST) ∧
    (∀ t ∈ clean_score_eval_tasks registry_names eval_mixture, t ∉ TASK_BLACKLIST) := by
  intro registry_names train_mixture eval_mixture
  refine ⟨?_, ?_, ?_, ?_, ?_, ?_, ?_⟩
  · intro t ht hmem
    rcases List.mem_filter.mp ht with ⟨-, hp⟩
    simp only [Bool.not_eq_true', decide_eq_false_iff_not] at hp
    exact hp hmem
  · intro t ht hmem
    rcases List.mem_filter.mp ht with ⟨-, hp⟩
    have hb := List.all_eq_true.mp blacklist_none_start_super_glue t hmem
    rw [hp] at hb
    cases hb
  · intro t ht hmem
    rcases List.mem_filter.mp ht with ⟨-, hp⟩
    simp only [Bool.not_eq_true', decide_eq_false_iff_not] at hp
    exact hp hmem
  · intro t ht hmem
    rcases List.mem_filter.mp ht with ⟨-, hp⟩
    simp only [Bool.not_eq_true', decide_eq_false_iff_not] at hp
    exact hp hmem
  · intro t ht hmem
    rcases List.mem_filter.mp ht with ⟨-, hp⟩
    have hb := List.all_eq_true.mp blacklist_none_start_anli t hmem
    rw [hp] at hb
    cases hb
  · intro t ht hmem
    rcases List.mem_filter.mp ht with ⟨-, hp⟩
    have hb := List.all_eq_true.mp blacklist_none_end_score_eval t hmem
    rw [hp] at hb
    cases hb
  · intro t ht hmem
    rcases List.mem_filter.mp ht with ⟨-, hp⟩
    have hend : pyEndsWith t "_score_eval" = true := by
      simp only [Bool.and_eq_true] at hp
      exact hp.1.1
    have hb := List.all_eq_true.mp blacklist_none_end_score_eval t hmem
    rw [hend] at hb
    cases hb

theorem no_blacklisted_task_witness : "a" ∉ TASK_BLACKLIST :=
  (no_blacklisted_task_in_any_mixture ["a"] [] []).1 "a" (by decide)

/-- C7: get_tf_dataset is deterministic with respect to its shuffle_files
and seed arguments: both are deleted on entry (tasks.py line 71), so two
calls differing only in them return the same dataset. -/
theorem get_tf_dataset_ignores_shuffle_and_seed :
    ∀ (split : String) (sf1 sf2 : Bool) (seed1 seed2 : Option Nat) (dataset_name : String)
      (subset_name : Option String) (template : Template)
      (split_mapping : List (String × String)),
      get_tf_dataset split sf1 seed1 dataset_name subset_name template split_mapping =
        get_tf_dataset split sf2 seed2 dataset_name subset_name template split_mapping := by
  intros
  rfl

/-- C9: get_label_strings is partial in the separator: when the jinja of the
template splits on ||| into fewer than two parts (that is, the jinja
contains no ||| occurrence), the index [1] raises an IndexError; and every
non-raising run of get_label_strings requires at least two parts. -/
theorem get_label_strings_requires_separator :
    ∀ t : Template,
      ((pySplitOn t.jinja "|||").length < 2 →
        get_label_strings t = .error .indexError) ∧
      (∀ r, get_label_strings t = .ok r → 2 ≤ (pySplitOn t.jinja "|||").length) := by
  intro t
  constructor
  · intro h
    have hn : (pySplitOn t.jinja "|||").get? 1 = none := List.get?_eq_none.mpr (by omega)
    unfold get_label_strings
    rw [hn]
  · intro r h
    by_contra hc
    push_neg at hc
    have hn : (pySplitOn t.jinja "|||").get? 1 = none := List.get?_eq_none.mpr (by omega)
    unfold get_label_strings at h
    rw [hn] at h
    simp at h

theorem get_label_strings_requires_separator_witness :
    (pySplitOn tmplNoSep.jinja "|||").length < 2 ∧
      get_label_strings tmplNoSep = .error .indexError :=
  ⟨by decide, (get_label_strings_requires_separator tmplNoSep).1 (by decide)⟩

theorem processRows_char (rows : List Row) :
    processRows rows =
      ⟨(rows.filter (fun r => decide (r.skip = "") && decide (r.do_train = "TRUE"))).map
          Row.toNRow,
       (rows.filter (fun r => decide (r.skip = "") && decide (r.do_eval = "TRUE"))).map
          Row.toNRow,
       (rows.filter (fun r => decide (r.skip = "") && decide (r.do_train = "TRUE"))).map
          (fun r => (r.HF_name, normSubset r.subset)),
       (rows.filter (fun r => decide (r.skip = "") && decide (r.do_eval = "TRUE"))).map
          (fun r => (r.HF_name, normSubset r.subset))⟩ := by
  induction rows with
  | nil => rfl
  | cons row rest ih =>
    by_cases hs : row.skip = ""
    · by_cases ht : row.do_train = "TRUE" <;> by_cases he : row.do_eval = "TRUE" <;>
        simp [processRows, hs, ht, he, List.filter_cons, ih]
    · simp [processRows, hs, List.filter_cons, ih]

theorem processRows_other_invariant (g : Row → List (String × String)) :
    ∀ rows : List Row,
      ((processRows (rows.map (fun r => { r with other := g r }))).do_train =
        (processRows rows).do_train) ∧
      ((processRows (rows.map (fun r => { r with other := g r }))).do_eval =
        (processRows rows).do_eval) := by
  intro rows
  induction rows with
  | nil => exact ⟨rfl, rfl⟩
  | cons row rest ih =>
    by_cases hs : row.skip = ""
    · by_cases ht : row.do_train = "TRUE" <;> by_cases he : row.do_eval = "TRUE" <;>
        simp [processRows, hs, ht, he, ih.1, ih.2]
    · simp [processRows, hs, ih.1, ih.2]

/-- C5: The manifest loop reads only the columns skip, subset, do_train,
do_eval and HF_name: a row is ignored exactly when its skip field is
non-empty, an empty subset is converted to None by normSubset, the
(HF_name, subset) pair enters the train lists exactly when do_train is TRUE
and the eval lists exactly when do_eval is TRUE, and rewriting the remaining
columns of every row leaves the do_train and do_eval lists unchanged. -/
theorem manifest_reads_only_recognized_columns :
    ∀ rows : List Row,
      ((processRows rows).do_train =
        (rows.filter (fun r => decide (r.skip = "") && decide (r.do_train = "TRUE"))).map
          (fun r => (r.HF_name, normSubset r.subset))) ∧
      ((processRows rows).do_eval =
        (rows.filter (fun r => decide (r.skip = "") && decide (r.do_eval = "TRUE"))).map
          (fun r => (r.HF_name, normSubset r.subset))) ∧
      ((processRows rows).train_sets =
        (rows.filter (fun r => decide (r.skip = "") && decide (r.do_train = "TRUE"))).map
          Row.toNRow) ∧
      ((processRows rows).eval_sets =
        (rows.filter (fun r => decide (r.skip = "") && decide (r.do_eval = "TRUE"))).map
          Row.toNRow) ∧
      (∀ g : Row → List (String × String),
        ((processRows (rows.map (fun r => { r with other := g r }))).do_train =
          (processRows rows).do_train) ∧
        ((processRows (rows.map (fun r => { r with other := g r }))).do_eval =
          (processRows rows).do_eval)) := by
  intro rows
  refine ⟨?_, ?_, ?_, ?_, fun g => processRows_other_invariant g rows⟩ <;>
    rw [processRows_char rows]

/-- C10: Manifest row classification is exact-match and case-sensitive: a
row with any non-empty skip value contributes to none of the four manifest
lists, and a non-skipped row whose do_train (resp. do_eval) field is any
string other than TRUE contributes nothing to the train (resp. eval) lists,
silently. -/
theorem manifest_exact_match_case_sensitive :
    ∀ (pre post : List Row) (row : Row),
      (row.skip ≠ "" →
        processRows (pre ++ row :: post) = processRows (pre ++ post)) ∧
      (row.skip = "" → row.do_train ≠ "TRUE" →
        (processRows (pre ++ row :: post)).do_train = (processRows (pre ++ post)).do_train ∧
        (processRows (pre ++ row :: post)).train_sets =
          (processRows (pre ++ post)).train_sets) ∧
      (row.skip = "" → row.do_eval ≠ "TRUE" →
        (processRows (pre ++ row :: post)).do_eval = (processRows (pre ++ post)).do_eval ∧
        (processRows (pre ++ row :: post)).eval_sets =
          (processRows (pre ++ post)).eval_sets) := by
  intro pre post row
  refine ⟨?_, ?_, ?_⟩
  · intro hs
    rw [processRows_char, processRows_char]
    simp [List.filter_append, List.filter_cons, hs]
  · intro hs ht
    rw [processRows_char, processRows_char]
    simp [List.filter_append, List.filter_cons, hs, ht]
  · intro hs he
    rw [processRows_char, processRows_char]
    simp [List.filter_append, List.filter_cons, hs, he]

theorem manifest_exact_match_witness :
    processRows [⟨"FALSE", "", "TRUE", "TRUE", "x", []⟩] = processRows [] ∧
    (processRows [⟨"", "", "True", "true", "x", []⟩]).do_train = (processRows []).do_train ∧
    (processRows [⟨"", "", "True", "true", "x", []⟩]).do_eval = (processRows []).do_eval :=
  ⟨(manifest_exact_match_case_sensitive [] [] ⟨"FALSE", "", "TRUE", "TRUE", "x", []⟩).1
      (by decide),
   ((manifest_exact_match_case_sensitive [] [] ⟨"", "", "True", "true", "x", []⟩).2.1
      (by decide) (by decide)).1,
   ((manifest_exact_match_case_sensitive [] [] ⟨"", "", "True", "true", "x", []⟩).2.2
      (by decide) (by decide)).1⟩

theorem add_task_ok_char :
    ∀ (env : Env) (coll : TemplateCollection) (d : String) (s : Option String)
      (tn : String) (tname : Option String) (sm : Option (List (String × String)))
      (ts : List RegisteredTask) (template : Template),
      (getDatasetOf coll (d, s)).getItem tn = some template →
      add_task env coll d s tn tname sm = .ok ts →
      ∃ mainT rest, ts = mainT :: rest ∧
        mainT.name = tname.getD (env.getTaskName d s tn) ∧
        lookupMetrics env d s template = .ok mainT.metric_fns ∧
        maybe_get_class_id_postprocessor template = .ok mainT.postprocess_fn ∧
        ((rest = [] ∧ (get_label_strings template = .ok none ∨
            get_label_strings template = .ok (some []))) ∨
         (∃ ls scoreT, get_label_strings template = .ok (some ls) ∧ ls ≠ [] ∧
            rest = [scoreT] ∧
            scoreT.name = mainT.name ++ "_score_eval" ∧
            scoreT.metric_fns = [Metric.rank_classification ls.length] ∧
            scoreT.postprocess_fn = .rank_classification)) := by
  intro env coll d s tn tname sm ts template htm h
  unfold add_task at h
  rw [htm] at h
  dsimp only at h
  split at h
  · simp at h
  next metrics hmet =>
    split at h
    · simp at h
    next nie hnie =>
      split at h
      · simp at h
      next post hpost =>
        split at h
        · simp at h
        next labels hgls =>
          split at h
          next hemp =>
            injection h with h2
            subst h2
            refine ⟨_, _, rfl, rfl, hmet, hpost, Or.inl ⟨rfl, Or.inr ?_⟩⟩
            rw [List.isEmpty_iff] at hemp
            rw [← hemp]
            exact hgls
          next hemp =>
            injection h with h2
            subst h2
            refine ⟨_, _, rfl, rfl, hmet, hpost,
              Or.inr ⟨labels, _, hgls, ?_, rfl, rfl, rfl, rfl⟩⟩
            rw [List.isEmpty_iff] at hemp
            exact fun hc => hemp (by rw [hc])
        next hgls =>
          injection h with h2
          subst h2
          exact ⟨_, _, rfl, rfl, hmet, hpost, Or.inl ⟨rfl, Or.inl hgls⟩⟩

theorem append_score_eval_ne : ∀ x : String, x ++ "_score_eval" ≠ x := by
  intro x h
  have h2 := congrArg String.length h
  rw [String.length_append] at h2
  have h3 : ("_score_eval" : String).length = 11 := by decide
  omega

/-- C2: For every (dataset, subset, template) processed by add_task, a task
named task_name + _score_eval is registered if and only if
get_label_strings returns a non-empty list of label strings (the Python
truthiness test of line 131), and that task's rank_classification metric
has num_classes equal to the number of label strings. -/
theorem score_eval_task_iff_nonempty_labels :
    ∀ (env : Env) (coll : TemplateCollection) (d : String) (s : Option String)
      (tn : String) (tname : Option String) (sm : Option (List (String × String)))
      (ts : List RegisteredTask) (template : Template),
      (getDatasetOf coll (d, s)).getItem tn = some template →
      add_task env coll d s tn tname sm = .ok ts →
      ((∃ rt ∈ ts, rt.name = tname.getD (env.getTaskName d s tn) ++ "_score_eval") ↔
        (∃ ls, get_label_strings template = .ok (some ls) ∧ ls ≠ [])) ∧
      (∀ ls rt, get_label_strings template = .ok (some ls) → rt ∈ ts →
        rt.name = tname.getD (env.getTaskName d s tn) ++ "_score_eval" →
        rt.metric_fns = [Metric.rank_classification ls.length]) := by
  intro env coll d s tn tname sm ts template htm h
  obtain ⟨mainT, rest, hts, hname, hmet, hpost, hcase⟩ :=
    add_task_ok_char env coll d s tn tname sm ts template htm h
  subst hts
  constructor
  · constructor
    · rintro ⟨rt, hrt, hrtname⟩
      rcases hcase with ⟨hrest, -⟩ | ⟨ls, scoreT, hls, hlsne, hrest, -, -, -⟩
      · subst hrest
        rcases List.mem_singleton.mp hrt with rfl
        rw [hname] at hrtname
        exact absurd hrtname.symm (append_score_eval_ne _)
      · exact ⟨ls, hls, hlsne⟩
    · rintro ⟨ls, hls, hlsne⟩
      rcases hcase with ⟨hrest, hopt⟩ | ⟨ls2, scoreT, hls2, -, hrest, hsname, -, -⟩
      · exfalso
        rcases hopt with hopt | hopt <;> rw [hls] at hopt <;>
          · injection hopt with h2
            first
              | exact Option.noConfusion h2
              | (injection h2 with h3; exact hlsne h3)
      · exact ⟨scoreT, by simp [hrest], by rw [hsname, hname]⟩
  · intro ls rt hls hrt hrtname
    rcases hcase with ⟨hrest, -⟩ | ⟨ls2, scoreT, hls2, hne2, hrest, hsname, hsmet, -⟩
    · subst hrest
      rcases List.mem_singleton.mp hrt with rfl
      rw [hname] at hrtname
      exact absurd hrtname.symm (append_score_eval_ne _)
    · subst hrest
      rcases List.mem_cons.mp hrt with rfl | hrt2
      · rw [hname] at hrtname
        exact absurd hrtname.symm (append_score_eval_ne _)
      · rcases List.mem_singleton.mp hrt2 with rfl
        rw [hls] at hls2
        injection hls2 with h2
        injection h2 with h3
        rw [hsmet, h3]

/-- C4 (amended): Every task registered by add_task is tagged with a metric
list and a postprocessing function.  The primary task's metric list equals
get_glue_metric(subset) when the dataset is glue, [accuracy] for the
super_glue subsets wsc.fixed and multirc, get_super_glue_metric(subset) for
other super_glue subsets, and otherwise the GET_METRICS lookups of the
template metadata metric names; the secondary _score_eval task, when
present, is instead tagged with the single metric rank_classification with
num_classes equal to the number of label strings and the
rank_classification postprocessor. -/
theorem registered_task_tagging :
    ∀ (env : Env) (coll : TemplateCollection) (d : String) (s : Option String)
      (tn : String) (tname : Option String) (sm : Option (List (String × String)))
      (ts : List RegisteredTask) (template : Template),
      (getDatasetOf coll (d, s)).getItem tn = some template →
      add_task env coll d s tn tname sm = .ok ts →
      ∃ mainT rest, ts = mainT :: rest ∧
        mainT.name = tname.getD (env.getTaskName d s tn) ∧
        maybe_get_class_id_postprocessor template = .ok mainT.postprocess_fn ∧
        (d = "glue" → mainT.metric_fns = env.getGlueMetric s) ∧
        (d = "super_glue" → (s = some "wsc.fixed" ∨ s = some "multirc") →
          mainT.metric_fns = [Metric.accuracy]) ∧
        (d = "super_glue" → ¬(s = some "wsc.fixed" ∨ s = some "multirc") →
          mainT.metric_fns = env.getSuperGlueMetric s) ∧
        (d ≠ "glue" → d ≠ "super_glue" →
          evalMetricsList template.metadata.metrics = .ok mainT.metric_fns) ∧
        (∀ rt ∈ rest, ∃ ls, get_label_strings template = .ok (some ls) ∧ ls ≠ [] ∧
          rt.name = mainT.name ++ "_score_eval" ∧
          rt.metric_fns = [Metric.rank_classification ls.length] ∧
          rt.postprocess_fn = .rank_classification) := by
  intro env coll d s tn tname sm ts template htm h
  obtain ⟨mainT, rest, hts, hname, hmet, hpost, hcase⟩ :=
    add_task_ok_char env coll d s tn tname sm ts template htm h
  refine ⟨mainT, rest, hts, hname, hpost, ?_, ?_, ?_, ?_, ?_⟩
  · intro hg
    unfold lookupMetrics at hmet
    rw [if_pos hg] at hmet
    injection hmet with h2
    exact h2.symm
  · intro hsg hsub
    unfold lookupMetrics at hmet
    rw [if_neg (by rw [hsg]; decide), if_pos hsg, if_pos hsub] at hmet
    injection hmet with h2
    exact h2.symm
  · intro hsg hsub
    unfold lookupMetrics at hmet
    rw [if_neg (by rw [hsg]; decide), if_pos hsg, if_neg hsub] at hmet
    injection hmet with h2
    exact h2.symm
  · intro hg hsg
    unfold lookupMetrics at hmet
    rw [if_neg hg, if_neg hsg] at hmet
    exact hmet
  · intro rt hrt
    rcases hcase with ⟨hrest, -⟩ | ⟨ls, scoreT, hls, hlsne, hrest, hsname, hsmet, hspost⟩
    · rw [hrest] at hrt
      cases hrt
    · rw [hrest] at hrt
      rcases List.mem_singleton.mp hrt with rfl
      exact ⟨ls, hls, hlsne, hsname, hsmet, hspost⟩


/-- C4 counterexample: at a concrete non-glue dataset whose template
declares the metric Accuracy, add_task registers a task (the _score_eval
task) whose metric list is not the GET_METRICS lookup result, refuting the
claim's universal statement over every registered task. -/
theorem metric_tagging_claim_counterexample :
    add_task env0 coll0 "d" none "t1" none none = Except.ok ts0 ∧
      "d" ≠ "glue" ∧ "d" ≠ "super_glue" ∧
      (getDatasetOf coll0 ("d", none)).getItem "t1" = some tmplLabels ∧
      evalMetricsList tmplLabels.metadata.metrics = Except.ok [Metric.accuracy] ∧
      ∃ rt ∈ ts0, rt.metric_fns ≠ [Metric.accuracy] := by
  refine ⟨rfl, by decide, by decide, rfl, rfl, ?_⟩
  decide

theorem score_eval_task_iff_witness :
    ∃ rt ∈ ts0,
      rt.name = (none : Option String).getD (env0.getTaskName "d" none "t1") ++ "_score_eval" :=
  ((score_eval_task_iff_nonempty_labels env0 coll0 "d" none "t1" none none ts0 tmplLabels
      rfl rfl).1).mpr ⟨["yes", "no"], rfl, by decide⟩

theorem registered_task_tagging_witness :
    ∃ mainT rest, ts0 = mainT :: rest ∧
      evalMetricsList tmplLabels.metadata.metrics = Except.ok mainT.metric_fns := by
  obtain ⟨mainT, rest, hts, -, -, -, -, -, hother, -⟩ :=
    registered_task_tagging env0 coll0 "d" none "t1" none none ts0 tmplLabels rfl rfl
  exact ⟨mainT, rest, hts, hother (by decide) (by decide)⟩

theorem evalMetricsList_error_of_missing :
    ∀ (ms : List String) (m : String), m ∈ ms → lookupFirst m GET_METRICS = none →
      ∃ k, k ∈ ms ∧ lookupFirst k GET_METRICS = none ∧
        evalMetricsList ms = .error (.keyError k) := by
  intro ms
  induction ms with
  | nil => intro m hm; cases hm
  | cons m0 rest ih =>
    intro m hm hnone
    by_cases h0 : lookupFirst m0 GET_METRICS = none
    · exact ⟨m0, List.mem_cons_self _ _, h0, by simp [evalMetricsList, h0]⟩
    · have hm2 : m ∈ rest := by
        rcases List.mem_cons.mp hm with rfl | hr
        · exact absurd hnone h0
        · exact hr
      obtain ⟨k, hk, hkn, hke⟩ := ih m hm2 hnone
      obtain ⟨f, hf⟩ := Option.ne_none_iff_exists'.mp h0
      exact ⟨k, List.mem_cons_of_mem _ hk, hkn, by simp [evalMetricsList, hf, hke]⟩

/-- C6: For a dataset that is neither glue nor super_glue, a template
metadata metric name missing from GET_METRICS makes add_task raise an
uncaught KeyError, and because the lookup (line 91) precedes the first
TaskRegistry.add call (line 120), the registry state is exactly the input
state. -/
theorem unknown_metric_uncaught_before_registration :
    ∀ (env : Env) (coll : TemplateCollection) (d : String) (s : Option String)
      (tn : String) (tname : Option String) (sm : Option (List (String × String)))
      (st : ScriptState) (template : Template) (m : String),
      (getDatasetOf coll (d, s)).getItem tn = some template →
      d ≠ "glue" → d ≠ "super_glue" →
      m ∈ template.metadata.metrics → lookupFirst m GET_METRICS = none →
      ∃ k, k ∈ template.metadata.metrics ∧ lookupFirst k GET_METRICS = none ∧
        add_task env coll d s tn tname sm = .error (.keyError k) ∧
        add_task_state env coll d s tn tname sm st = (st, some (.keyError k)) := by
  intro env coll d s tn tname sm st template m htm hg hsg hm hnone
  obtain ⟨k, hk, hkn, hke⟩ :=
    evalMetricsList_error_of_missing template.metadata.metrics m hm hnone
  have hlm : lookupMetrics env d s template = .error (.keyError k) := by
    unfold lookupMetrics
    rw [if_neg hg, if_neg hsg]
    exact hke
  have hadd : add_task env coll d s tn tname sm = .error (.keyError k) := by
    unfold add_task
    rw [htm]
    dsimp only
    rw [hlm]
  exact ⟨k, hk, hkn, hadd, by unfold add_task_state; rw [hadd]⟩

theorem unknown_metric_witness :
    ∃ k, k ∈ tmplBadMetric.metadata.metrics ∧ lookupFirst k GET_METRICS = none ∧
      add_task env0 coll1 "bad" none "t1" none none = .error (.keyError k) ∧
      add_task_state env0 coll1 "bad" none "t1" none none st0 = (st0, some (.keyError k)) :=
  unknown_metric_uncaught_before_registration env0 coll1 "bad" none "t1" none none st0
    tmplBadMetric "Nope" rfl (by decide) (by decide) (by decide) rfl

theorem stateSub_refl : ∀ st : ScriptState, StateSub st st :=
  fun _ => ⟨fun _ h => h, fun _ h => h, fun _ h => h⟩

theorem stateSub_trans :
    ∀ {a b c : ScriptState}, StateSub a b → StateSub b c → StateSub a c :=
  fun h1 h2 =>
    ⟨fun x hx => h2.1 x (h1.1 x hx), fun x hx => h2.2.1 x (h1.2.1 x hx),
     fun x hx => h2.2.2 x (h1.2.2 x hx)⟩

theorem stateSub_name_mem {st st1 : ScriptState} {x : String} :
    StateSub st st1 → x ∈ st.registry.map (fun rt => rt.name) →
    x ∈ st1.registry.map (fun rt => rt.name) := by
  intro hsub hx
  rcases List.mem_map.mp hx with ⟨rt, hrt, hrtn⟩
  exact List.mem_map.mpr ⟨rt, hsub.1 rt hrt, hrtn⟩

theorem seqFold_state_sub {α : Type} (f : ScriptState → α → StepRes)
    (hf : ∀ st a st1, f st a = (st1, none) → StateSub st st1) :
    ∀ (l : List α) (st st1 : ScriptState),
      seqFold f st l = (st1, none) → StateSub st st1 := by
  intro l
  induction l with
  | nil =>
    intro st st1 h
    unfold seqFold at h
    injection h with h1 h2
    subst h1
    exact stateSub_refl st
  | cons a as ih =>
    intro st st1 h
    unfold seqFold at h
    cases hfa : f st a with
    | mk st2 e =>
      rw [hfa] at h
      cases e with
      | some e2 => simp at h
      | none => exact stateSub_trans (hf st a st2 hfa) (ih st2 st1 h)

theorem seqFold_eval_char {α : Type} (f : ScriptState → α → StepRes) (g : α → List String)
    (hf : ∀ st a st1, f st a = (st1, none) →
      st1.eval_mixture = st.eval_mixture ++ g a) :
    ∀ (l : List α) (st st1 : ScriptState),
      seqFold f st l = (st1, none) →
      st1.eval_mixture = st.eval_mixture ++ l.flatMap g := by
  intro l
  induction l with
  | nil =>
    intro st st1 h
    unfold seqFold at h
    injection h with h1 h2
    subst h1
    simp
  | cons a as ih =>
    intro st st1 h
    unfold seqFold at h
    cases hfa : f st a with
    | mk st2 e =>
      rw [hfa] at h
      cases e with
      | some e2 => simp at h
      | none =>
        rw [ih st2 st1 h, hf st a st2 hfa, List.flatMap_cons, List.append_assoc]

theorem innerStep_ok_char :
    ∀ (env : Env) (coll : TemplateCollection) (dt de : List DKey) (k : DKey)
      (st : ScriptState) (tn : String) (st1 : ScriptState),
      innerStep env coll dt de k st tn = (st1, none) →
      ∃ ts, add_task env coll k.1 k.2 tn none none = .ok ts ∧
        st1.registry = st.registry ++ ts ∧
        st1.train_mixture = st.train_mixture ++
          (if k ∈ dt then [env.getTaskName k.1 k.2 tn] else []) ∧
        st1.eval_mixture = st.eval_mixture ++ evalAppend env coll de k tn := by
  intro env coll dt de k st tn st1 h
  unfold innerStep add_task_state at h
  cases hadd : add_task env coll k.1 k.2 tn none none with
  | error e =>
    rw [hadd] at h
    dsimp only at h
    simp at h
  | ok ts =>
    rw [hadd] at h
    dsimp only at h
    refine ⟨ts, rfl, ?_⟩
    by_cases hdt : k ∈ dt <;> by_cases hde : k ∈ de
    · rw [if_pos hdt, if_pos hde] at h
      cases hit : (getDatasetOf coll k).getItem tn with
      | none => rw [hit] at h; simp at h
      | some t =>
        rw [hit] at h
        dsimp only at h
        cases horig : t.metadata.original_task with
        | false =>
          simp only [horig, Bool.false_eq_true, if_false] at h
          injection h with h1 h2
          subst h1
          simp [evalAppend, hdt, hde, hit, horig]
        | true =>
          simp only [horig, if_true] at h
          injection h with h1 h2
          subst h1
          simp [evalAppend, hdt, hde, hit, horig]
    · rw [if_pos hdt, if_neg hde] at h
      injection h with h1 h2
      subst h1
      simp [evalAppend, hdt, hde]
    · rw [if_neg hdt, if_pos hde] at h
      cases hit : (getDatasetOf coll k).getItem tn with
      | none => rw [hit] at h; simp at h
      | some t =>
        rw [hit] at h
        dsimp only at h
        cases horig : t.metadata.original_task with
        | false =>
          simp only [horig, Bool.false_eq_true, if_false] at h
          injection h with h1 h2
          subst h1
          simp [evalAppend, hdt, hde, hit, horig]
        | true =>
          simp only [horig, if_true] at h
          injection h with h1 h2
          subst h1
          simp [evalAppend, hdt, hde, hit, horig]
    · rw [if_neg hdt, if_neg hde] at h
      injection h with h1 h2
      subst h1
      simp [evalAppend, hdt, hde]

theorem innerStep_state_sub :
    ∀ (env : Env) (coll : TemplateCollection) (dt de : List DKey) (k : DKey)
      (st : ScriptState) (tn : String) (st1 : ScriptState),
      innerStep env coll dt de k st tn = (st1, none) → StateSub st st1 := by
  intro env coll dt de k st tn st1 h
  obtain ⟨ts, -, hreg, htr, hev⟩ := innerStep_ok_char env coll dt de k st tn st1 h
  refine ⟨?_, ?_, ?_⟩ <;> intro x hx
  · rw [hreg]; exact List.mem_append.mpr (Or.inl hx)
  · rw [htr]; exact List.mem_append.mpr (Or.inl hx)
  · rw [hev]; exact List.mem_append.mpr (Or.inl hx)

theorem add_task_name_mem :
    ∀ (env : Env) (coll : TemplateCollection) (d : String) (s : Option String)
      (tn : String) (tname : Option String) (sm : Option (List (String × String)))
      (ts : List RegisteredTask),
      add_task env coll d s tn tname sm = .ok ts →
      tname.getD (env.getTaskName d s tn) ∈ ts.map (fun rt => rt.name) := by
  intro env coll d s tn tname sm ts h
  have h2 := h
  unfold add_task at h2
  split at h2
  · simp at h2
  next template htm2 =>
    obtain ⟨mainT, rest, hts, hname, -, -, -⟩ :=
      add_task_ok_char env coll d s tn tname sm ts template htm2 h
    rw [hts]
    exact List.mem_map.mpr ⟨mainT, List.mem_cons_self _ _, hname⟩

theorem seqFold_inner_mem :
    ∀ (env : Env) (coll : TemplateCollection) (dt de : List DKey) (k : DKey)
      (names : List String) (st st1 : ScriptState) (tn : String),
      seqFold (innerStep env coll dt de k) st names = (st1, none) →
      tn ∈ names →
      env.getTaskName k.1 k.2 tn ∈ st1.registry.map (fun rt => rt.name) ∧
      (k ∈ dt → env.getTaskName k.1 k.2 tn ∈ st1.train_mixture) := by
  intro env coll dt de k names
  induction names with
  | nil => intro st st1 tn h htn; cases htn
  | cons tn0 rest ih =>
    intro st st1 tn h htn
    unfold seqFold at h
    cases his : innerStep env coll dt de k st tn0 with
    | mk st2 e =>
      rw [his] at h
      cases e with
      | some e2 => simp at h
      | none =>
        rcases List.mem_cons.mp htn with rfl | htn2
        · obtain ⟨ts, hadd, hreg, htr, hev⟩ :=
            innerStep_ok_char env coll dt de k st tn st2 his
          have hnm := add_task_name_mem env coll k.1 k.2 tn none none ts hadd
          have hsub : StateSub st2 st1 :=
            seqFold_state_sub _ (innerStep_state_sub env coll dt de k) rest st2 st1 h
          constructor
          · apply stateSub_name_mem hsub
            rw [hreg]
            rcases List.mem_map.mp hnm with ⟨rt, hrt, hrtn⟩
            exact List.mem_map.mpr ⟨rt, List.mem_append.mpr (Or.inr hrt), hrtn⟩
          · intro hkdt
            apply hsub.2.1
            rw [htr, if_pos hkdt]
            simp
        · exact ih st2 st1 tn h htn2

theorem processKey_state_sub :
    ∀ (env : Env) (coll : TemplateCollection) (dt de : List DKey)
      (st : ScriptState) (k : DKey) (st1 : ScriptState),
      processKey env coll dt de st k = (st1, none) → StateSub st st1 := by
  intro env coll dt de st k st1 h
  unfold processKey at h
  by_cases hin : k ∈ dt ++ de
  · rw [if_pos hin] at h
    exact seqFold_state_sub _ (innerStep_state_sub env coll dt de k) _ st st1 h
  · rw [if_neg hin] at h
    injection h with h1 h2
    subst h1
    exact stateSub_refl st

theorem mainLoop_mem :
    ∀ (env : Env) (coll : TemplateCollection) (dt de : List DKey) (keys : List DKey)
      (st st1 : ScriptState) (k : DKey) (tn : String),
      mainLoop env coll dt de st keys = (st1, none) →
      k ∈ keys → k ∈ dt →
      tn ∈ (getDatasetOf coll k).all_template_names →
      env.getTaskName k.1 k.2 tn ∈ st1.registry.map (fun rt => rt.name) ∧
      env.getTaskName k.1 k.2 tn ∈ st1.train_mixture := by
  intro env coll dt de keys
  induction keys with
  | nil => intro st st1 k tn h hk; cases hk
  | cons k0 rest ih =>
    intro st st1 k tn h hk hkdt htn
    unfold mainLoop seqFold at h
    cases hpk : processKey env coll dt de st k0 with
    | mk st2 e =>
      rw [hpk] at h
      cases e with
      | some e2 => simp at h
      | none =>
        rcases List.mem_cons.mp hk with rfl | hk2
        · have hin : k ∈ dt ++ de := List.mem_append.mpr (Or.inl hkdt)
          have hpk2 := hpk
          unfold processKey at hpk2
          rw [if_pos hin] at hpk2
          have hinner := seqFold_inner_mem env coll dt de k
            (getDatasetOf coll k).all_template_names st st2 tn hpk2 htn
          have hsub : StateSub st2 st1 :=
            seqFold_state_sub _ (processKey_state_sub env coll dt de) rest st2 st1 h
          exact ⟨stateSub_name_mem hsub hinner.1, hsub.2.1 _ (hinner.2 hkdt)⟩
        · exact ih st2 st1 k tn h hk2 hkdt htn

theorem anliStep_ok_char :
    ∀ (env : Env) (coll : TemplateCollection) (anli_round : String)
      (st : ScriptState) (tn : String) (st1 : ScriptState),
      anliStep env coll anli_round st tn = (st1, none) →
      ∃ ts, st1.registry = st.registry ++ ts ∧
        st1.train_mixture = st.train_mixture ∧
        st1.eval_mixture = st.eval_mixture ++
          [env.getTaskName "anli" none tn ++ "_" ++ anli_round] := by
  intro env coll anli_round st tn st1 h
  unfold anliStep add_task_state at h
  dsimp only at h
  cases hadd : add_task env coll "anli" none tn
      (some (env.getTaskName "anli" none tn ++ "_" ++ anli_round))
      (some [("train", "train_" ++ anli_round), ("validation", "dev_" ++ anli_round),
             ("test", "test_" ++ anli_round)]) with
  | error e =>
    rw [hadd] at h
    dsimp only at h
    simp at h
  | ok ts =>
    rw [hadd] at h
    dsimp only at h
    injection h with h1 h2
    subst h1
    exact ⟨ts, rfl, rfl, rfl⟩

theorem anliStep_state_sub :
    ∀ (env : Env) (coll : TemplateCollection) (anli_round : String)
      (st : ScriptState) (tn : String) (st1 : ScriptState),
      anliStep env coll anli_round st tn = (st1, none) → StateSub st st1 := by
  intro env coll anli_round st tn st1 h
  obtain ⟨ts, hreg, htr, hev⟩ := anliStep_ok_char env coll anli_round st tn st1 h
  refine ⟨?_, ?_, ?_⟩ <;> intro x hx
  · rw [hreg]; exact List.mem_append.mpr (Or.inl hx)
  · rw [htr]; exact hx
  · rw [hev]; exact List.mem_append.mpr (Or.inl hx)

theorem anliRound_state_sub :
    ∀ (env : Env) (coll : TemplateCollection) (st : ScriptState) (anli_round : String)
      (st1 : ScriptState),
      anliRound env coll st anli_round = (st1, none) → StateSub st st1 := by
  intro env coll st anli_round st1 h
  unfold anliRound at h
  exact seqFold_state_sub _ (anliStep_state_sub env coll anli_round) _ st st1 h

theorem anliLoop_state_sub :
    ∀ (env : Env) (coll : TemplateCollection) (st st1 : ScriptState),
      anliLoop env coll st = (st1, none) → StateSub st st1 := by
  intro env coll st st1 h
  unfold anliLoop at h
  exact seqFold_state_sub _ (fun st a st1 => anliRound_state_sub env coll st a st1) _ st st1 h

theorem processRows_mem_do_train :
    ∀ (rows : List Row) (row : Row), row ∈ rows → row.skip = "" → row.do_train = "TRUE" →
      (row.HF_name, normSubset row.subset) ∈ (processRows rows).do_train := by
  intro rows row hrow hskip htrain
  rw [processRows_char]
  exact List.mem_map.mpr ⟨row, List.mem_filter.mpr ⟨hrow, by simp [hskip, htrain]⟩, rfl⟩

/-- C3: For every non-skipped manifest row with do_train TRUE whose
(HF_name, subset) pair is a key of the template collection iterated by the
main loop (the collection after the anli removal of line 173), a successful
run registers a task named getTaskName(dataset, subset, template) for every
template name of that pair, and appends each such name to train_mixture. -/
theorem train_rows_registered :
    ∀ (env : Env) (coll : TemplateCollection) (rows : List Row) (stF : ScriptState)
      (row : Row),
      runScript env coll rows = (stF, none) →
      row ∈ rows → row.skip = "" → row.do_train = "TRUE" →
      (row.HF_name, normSubset row.subset) ∈ keysAfterRemoval coll →
      ∀ tn ∈ (getDatasetOf coll (row.HF_name, normSubset row.subset)).all_template_names,
        env.getTaskName row.HF_name (normSubset row.subset) tn ∈
          stF.registry.map (fun rt => rt.name) ∧
        env.getTaskName row.HF_name (normSubset row.subset) tn ∈ stF.train_mixture := by
  intro env coll rows stF row h hrow hskip htrain hkey tn htn
  have hdt := processRows_mem_do_train rows row hrow hskip htrain
  unfold runScript at h
  split at h
  · dsimp only at h
    split at h
    next st1 hmain =>
      have hm := mainLoop_mem env coll (processRows rows).do_train (processRows rows).do_eval
        (keysAfterRemoval coll) ⟨[], [], []⟩ st1 (row.HF_name, normSubset row.subset) tn
        hmain hkey hdt htn
      have hsub := anliLoop_state_sub env coll st1 stF h
      exact ⟨stateSub_name_mem hsub hm.1, hsub.2.1 _ hm.2⟩
    next st1 e hmain => simp at h
  · simp at h

theorem train_rows_registered_witness :
    env0.getTaskName "d" none "t1" ∈
        (runScript env0 coll0 rows0).1.registry.map (fun rt => rt.name) ∧
      env0.getTaskName "d" none "t1" ∈ (runScript env0 coll0 rows0).1.train_mixture :=
  train_rows_registered env0 coll0 rows0 (runScript env0 coll0 rows0).1
    ⟨"", "", "TRUE", "TRUE", "d", [("training_fraction", "1.0")]⟩ rfl (by decide)
    (by decide) (by decide) (by decide) "t1" (by decide)

theorem flatMap_evalAppend :
    ∀ (env : Env) (coll : TemplateCollection) (de : List DKey) (k : DKey)
      (names : List String),
      names.flatMap (evalAppend env coll de k) =
        if k ∈ de then
          ((names.filter (fun tn =>
              match (getDatasetOf coll k).getItem tn with
              | some t => t.metadata.original_task
              | none => false)).map (fun tn => env.getTaskName k.1 k.2 tn))
        else [] := by
  intro env coll de k names
  by_cases hde : k ∈ de
  · rw [if_pos hde]
    induction names with
    | nil => simp
    | cons tn rest ih =>
      rw [List.flatMap_cons, List.filter_cons, ih]
      cases hit : (getDatasetOf coll k).getItem tn with
      | none => simp [evalAppend, hde, hit]
      | some t =>
        cases horig : t.metadata.original_task with
        | false => simp [evalAppend, hde, hit, horig]
        | true => simp [evalAppend, hde, hit, horig]
  · rw [if_neg hde]
    induction names with
    | nil => simp
    | cons tn rest ih => rw [List.flatMap_cons, ih]; simp [evalAppend, hde]

theorem processKey_eval_char :
    ∀ (env : Env) (coll : TemplateCollection) (dt de : List DKey)
      (st : ScriptState) (k : DKey) (st1 : ScriptState),
      processKey env coll dt de st k = (st1, none) →
      st1.eval_mixture = st.eval_mixture ++
        (if k ∈ de then origEvalNames env coll k else []) := by
  intro env coll dt de st k st1 h
  unfold processKey at h
  by_cases hin : k ∈ dt ++ de
  · rw [if_pos hin] at h
    have hc := seqFold_eval_char (innerStep env coll dt de k) (evalAppend env coll de k)
      (fun st a st1 ha => (innerStep_ok_char env coll dt de k st a st1 ha).choose_spec.2.2.2)
      (getDatasetOf coll k).all_template_names st st1 h
    rw [hc, flatMap_evalAppend]
    rfl
  · rw [if_neg hin] at h
    injection h with h1 h2
    subst h1
    have hde : k ∉ de := fun hc => hin (List.mem_append.mpr (Or.inr hc))
    rw [if_neg hde]
    simp

theorem mainLoop_eval_char :
    ∀ (env : Env) (coll : TemplateCollection) (dt de : List DKey)
      (st : ScriptState) (keys : List DKey) (st1 : ScriptState),
      mainLoop env coll dt de st keys = (st1, none) →
      st1.eval_mixture = st.eval_mixture ++ mainEvalList env coll de keys := by
  intro env coll dt de st keys st1 h
  unfold mainLoop at h
  exact seqFold_eval_char (processKey env coll dt de)
    (fun k => if k ∈ de then origEvalNames env coll k else [])
    (fun st a st1 ha => processKey_eval_char env coll dt de st a st1 ha)
    keys st st1 h

theorem anliRound_eval_char :
    ∀ (env : Env) (coll : TemplateCollection) (st : ScriptState) (anli_round : String)
      (st1 : ScriptState),
      anliRound env coll st anli_round = (st1, none) →
      st1.eval_mixture = st.eval_mixture ++
        (getDatasetOf coll ("anli", none)).all_template_names.map
          (fun tn => env.getTaskName "anli" none tn ++ "_" ++ anli_round) := by
  intro env coll st anli_round st1 h
  unfold anliRound at h
  have hc := seqFold_eval_char (anliStep env coll anli_round)
    (fun tn => [env.getTaskName "anli" none tn ++ "_" ++ anli_round])
    (fun st a st1 ha => (anliStep_ok_char env coll anli_round st a st1 ha).choose_spec.2.2)
    (getDatasetOf coll ("anli", none)).all_template_names st st1 h
  rw [hc]
  congr 1
  induction (getDatasetOf coll ("anli", none)).all_template_names with
  | nil => rfl
  | cons a as ih => rw [List.flatMap_cons, List.map_cons, ih]; rfl

theorem anliLoop_eval_char :
    ∀ (env : Env) (coll : TemplateCollection) (st st1 : ScriptState),
      anliLoop env coll st = (st1, none) →
      st1.eval_mixture = st.eval_mixture ++ anliEvalNames env coll := by
  intro env coll st st1 h
  unfold anliLoop at h
  exact seqFold_eval_char (anliRound env coll)
    (fun anli_round => (getDatasetOf coll ("anli", none)).all_template_names.map
      (fun tn => env.getTaskName "anli" none tn ++ "_" ++ anli_round))
    (fun st a st1 ha => anliRound_eval_char env coll st a st1 ha)
    ["r1", "r2", "r3"] st st1 h

/-- C8: On a successful run, the eval mixture is exactly the names
contributed by the main loop, one per do_eval key and original-task
template, followed by the ANLI names, one per round and ANLI template with
no original_task condition. -/
theorem eval_mixture_characterization :
    ∀ (env : Env) (coll : TemplateCollection) (rows : List Row) (stF : ScriptState),
      runScript env coll rows = (stF, none) →
      stF.eval_mixture =
        mainEvalList env coll (processRows rows).do_eval (keysAfterRemoval coll) ++
          anliEvalNames env coll := by
  intro env coll rows stF h
  unfold runScript at h
  split at h
  · dsimp only at h
    split at h
    next st1 hmain =>
      have h1 := mainLoop_eval_char env coll (processRows rows).do_train
        (processRows rows).do_eval ⟨[], [], []⟩ (keysAfterRemoval coll) st1 hmain
      have h2 := anliLoop_eval_char env coll st1 stF h
      rw [h2, h1]
      rfl
    next st1 e hmain => simp at h
  · simp at h

theorem eval_mixture_characterization_witness :
    (runScript env0 coll0 rows0).1.eval_mixture =
      mainEvalList env0 coll0 (processRows rows0).do_eval (keysAfterRemoval coll0) ++
        anliEvalNames env0 coll0 :=
  eval_mixture_characterization env0 coll0 rows0 (runScript env0 coll0 rows0).1 rfl
